import Mathlib

/-!
Shallow embedding of the facility-placement core of the
energy-simulation-optimization repository.

The embedded functions follow `SimpleEnergySimulator.optimize_reactors`,
`calculate_user_performance` and the scoring part of `solve_challenge`
from `src/api/index.py` (the versions in `src/flask_app.py` / `src/app.py`
are line-for-line the same algorithms).  Grids are square of size `n`
(`self.grid_size`); demand surfaces are functions `ℕ → ℕ → ℚ` (float
demand values modelled by rationals); the coverage map is a boolean
function on cells; the facility radius is the integer `reactor_radius`.
-/

namespace EnergySim

/-- The grid cells in the row-major scan order of the source's nested
`for i in range(n): for j in range(n)` loops. -/
def cells (n : ℕ) : List (ℕ × ℕ) :=
  (List.range n).flatMap fun i => (List.range n).map fun j => (i, j)

/-- The candidate score of cell `(i, j)` in `optimize_reactors`: the source
loops `di, dj` over `range(-radius, radius + 1)` and adds
`disaster_demand[ni, nj]` when `(ni, nj) = (i + di, j + dj)` is in the grid,
`di*di + dj*dj <= radius*radius`, and `coverage_map[ni, nj] == 0`. -/
def score (n : ℕ) (disaster : ℕ → ℕ → ℚ) (radius : ℕ)
    (cov : ℕ → ℕ → Bool) (i j : ℕ) : ℚ :=
  ∑ di in Finset.Icc (-(radius : ℤ)) (radius : ℤ),
    ∑ dj in Finset.Icc (-(radius : ℤ)) (radius : ℤ),
      if 0 ≤ (i : ℤ) + di ∧ (i : ℤ) + di < (n : ℤ) ∧
         0 ≤ (j : ℤ) + dj ∧ (j : ℤ) + dj < (n : ℤ) ∧
         di * di + dj * dj ≤ (radius : ℤ) * (radius : ℤ) ∧
         cov ((i : ℤ) + di).toNat ((j : ℤ) + dj).toNat = false
      then disaster ((i : ℤ) + di).toNat ((j : ℤ) + dj).toNat
      else 0

/-- One step of the best-candidate scan in `optimize_reactors`: cells already
in `locations` are skipped (`continue`), and the running best is replaced
only when `score > best_score`. -/
def selectStep (locs : List (ℕ × ℕ)) (f : ℕ × ℕ → ℚ)
    (st : (ℕ × ℕ) × ℚ) (c : ℕ × ℕ) : (ℕ × ℕ) × ℚ :=
  if c ∈ locs then st
  else if st.2 < f c then (c, f c) else st

/-- The full best-candidate scan of one greedy iteration, starting from
`best_score = 0`, `best_pos = (0, 0)` as in the source. -/
def selectBest (n : ℕ) (locs : List (ℕ × ℕ)) (f : ℕ × ℕ → ℚ) :
    (ℕ × ℕ) × ℚ :=
  (cells n).foldl (selectStep locs f) ((0, 0), 0)

/-- Marking the disc of the newly placed facility in the coverage map: the
source sets `coverage_map[ni, nj] = 1` for every in-grid `(ni, nj)` with
`di*di + dj*dj <= radius*radius`; as a function on cells this marks exactly
the in-grid cells whose squared distance to the site is at most `radius²`. -/
def markCoverage (n radius : ℕ) (cov : ℕ → ℕ → Bool) (p : ℕ × ℕ) :
    ℕ → ℕ → Bool :=
  fun a b =>
    if a < n ∧ b < n ∧
       ((a : ℤ) - p.1) * ((a : ℤ) - p.1) + ((b : ℤ) - p.2) * ((b : ℤ) - p.2) ≤
         (radius : ℤ) * (radius : ℤ)
    then true else cov a b

/-- The body of `for _ in range(num_reactors)`: pick the best candidate for
the current state, append it to `locations`, mark its disc covered. -/
def greedyStep (n : ℕ) (disaster : ℕ → ℕ → ℚ) (radius : ℕ)
    (st : List (ℕ × ℕ) × (ℕ → ℕ → Bool)) :
    List (ℕ × ℕ) × (ℕ → ℕ → Bool) :=
  let b := (selectBest n st.1 fun c => score n disaster radius st.2 c.1 c.2).1
  (st.1 ++ [b], markCoverage n radius st.2 b)

/-- The greedy placement loop of `optimize_reactors` after `k` iterations,
starting from the empty placement and the all-zero coverage map. -/
def greedyIter (n : ℕ) (disaster : ℕ → ℕ → ℚ) (radius : ℕ) :
    ℕ → List (ℕ × ℕ) × (ℕ → ℕ → Bool)
  | 0 => ([], fun _ _ => false)
  | k + 1 => greedyStep n disaster radius (greedyIter n disaster radius k)

/-- Embeds `np.sum(surface)` over the `n × n` grid. -/
def totalSum (n : ℕ) (surface : ℕ → ℕ → ℚ) : ℚ :=
  ∑ i in Finset.range n, ∑ j in Finset.range n, surface i j

/-- Embeds `np.sum(surface * coverage_map)`; the coverage map holds 0/1 values. -/
def coverageSum (n : ℕ) (surface : ℕ → ℕ → ℚ) (cov : ℕ → ℕ → Bool) : ℚ :=
  ∑ i in Finset.range n, ∑ j in Finset.range n,
    surface i j * (if cov i j then 1 else 0)

/-- Embeds `optimize_reactors(normal, disaster, k, radius, capacity)`: the returned
locations together with the two coverage percentages
`(covered / total) * 100 if total > 0 else 0` (capacity is unused by the
algorithm and omitted). -/
def optimize_reactors (n : ℕ) (normal disaster : ℕ → ℕ → ℚ)
    (k radius : ℕ) : List (ℕ × ℕ) × ℚ × ℚ :=
  let r := greedyIter n disaster radius k
  (r.1,
   if 0 < totalSum n normal
     then coverageSum n normal r.2 / totalSum n normal * 100 else 0,
   if 0 < totalSum n disaster
     then coverageSum n disaster r.2 / totalSum n disaster * 100 else 0)

/-- The inner `for rx, ry in user_locations` loop with early `break` of
`calculate_user_performance`: a cell is covered when some listed site is
within Euclidean distance `radius` (compared on squares; sites are arbitrary
integer pairs, with no bounds check). -/
def coveredBy (sites : List (ℤ × ℤ)) (radius : ℕ) (i j : ℕ) : Bool :=
  sites.any fun s =>
    decide (((i : ℤ) - s.1) * ((i : ℤ) - s.1) +
            ((j : ℤ) - s.2) * ((j : ℤ) - s.2) ≤ (radius : ℤ) * (radius : ℤ))

/-- The nested helper `calculate_coverage(demand_map)` of
`calculate_user_performance`: only cells with `demand > 1.0` count toward
`total_demand`, and toward `covered_demand` when covered by some site;
returns `covered / total * 100 if total > 0 else 0`. -/
def calculate_coverage (n : ℕ) (sites : List (ℤ × ℤ)) (radius : ℕ)
    (demand : ℕ → ℕ → ℚ) : ℚ :=
  let total := ∑ i in Finset.range n, ∑ j in Finset.range n,
    if 1 < demand i j then demand i j else 0
  let covered := ∑ i in Finset.range n, ∑ j in Finset.range n,
    if 1 < demand i j ∧ coveredBy sites radius i j = true then demand i j else 0
  if 0 < total then covered / total * 100 else 0

/-- Embeds `calculate_user_performance(user_locations, normal, disaster, radius)`:
the pair of thresholded coverage percentages. -/
def calculate_user_performance (n : ℕ) (sites : List (ℤ × ℤ))
    (normal disaster : ℕ → ℕ → ℚ) (radius : ℕ) : ℚ × ℚ :=
  (calculate_coverage n sites radius normal,
   calculate_coverage n sites radius disaster)

/-- The exact-match bonus of `solve_challenge`: 10 points for each user
placement that occurs among the optimizer's locations. -/
def locationBonus (user : List (ℤ × ℤ)) (optimal : List (ℕ × ℕ)) : ℚ :=
  10 * (user.countP fun u =>
    optimal.any fun o => decide ((o.1 : ℤ) = u.1 ∧ (o.2 : ℤ) = u.2))

/-- The scoring core of `solve_challenge`: user metrics come from
`calculate_user_performance`, optimal metrics from `optimize_reactors`;
`optimization_score = min(100, user_coverage / optimal_coverage * 100)`,
then `final_score = min(100, optimization_score + location_bonus)`, with
fallback 50 when `optimal_coverage` is not positive. -/
def solve_challenge_score (n : ℕ) (user : List (ℤ × ℤ))
    (normal disaster : ℕ → ℕ → ℚ) (k radius : ℕ) : ℚ :=
  let um := calculate_user_performance n user normal disaster radius
  let opt := optimize_reactors n normal disaster k radius
  let userCov := (um.1 + um.2) / 2
  let optCov := (opt.2.1 + opt.2.2) / 2
  if 0 < optCov then
    min 100 (min 100 (userCov / optCov * 100) + locationBonus user opt.1)
  else 50

/-- The marginal score of a candidate cell as the specification phrases it:
the sum of `disaster[ni, nj]` over in-grid cells `(ni, nj)` at Euclidean
distance at most `radius` from `(i, j)` (squared-distance comparison, which
is equivalent for the integer radius) that the coverage map does not yet
cover. -/
def marginalScore (n : ℕ) (disaster : ℕ → ℕ → ℚ) (radius : ℕ)
    (cov : ℕ → ℕ → Bool) (i j : ℕ) : ℚ :=
  ∑ p in (Finset.range n ×ˢ Finset.range n).filter fun p =>
      ((p.1 : ℤ) - i) * ((p.1 : ℤ) - i) + ((p.2 : ℤ) - j) * ((p.2 : ℤ) - j) ≤
        (radius : ℤ) * (radius : ℤ) ∧ cov p.1 p.2 = false,
    disaster p.1 p.2

/-- A concrete 2×2 demand surface used to exercise the embedded functions:
demand 2 at (0,0), 3 at (0,1), 1/2 at (1,0), 0 at (1,1). -/
def demoSurface : ℕ → ℕ → ℚ := fun i j =>
  if i = 0 ∧ j = 0 then 2
  else if i = 0 ∧ j = 1 then 3
  else if i = 1 ∧ j = 0 then 1/2
  else 0

/-- The all-zero demand surface. -/
def zeroSurface : ℕ → ℕ → ℚ := fun _ _ => 0

/-- The constant-two demand surface (above the significance threshold 1). -/
def twoSurface : ℕ → ℕ → ℚ := fun _ _ => 2

/-- Modelled from the claim's words (for comparison with
`solve_challenge_score`): both `userAvg` and `optimalAvg` are means of
`scorePlacement` percentages — i.e. of `calculate_user_performance`, the
thresholded routine — the latter applied to the optimizer's placement. -/
def claimedRelativeScore (n : ℕ) (user : List (ℤ × ℤ))
    (normal disaster : ℕ → ℕ → ℚ) (k radius : ℕ) : ℚ :=
  let um := calculate_user_performance n user normal disaster radius
  let opt := optimize_reactors n normal disaster k radius
  let om := calculate_user_performance n
    (opt.1.map fun p => ((p.1 : ℤ), (p.2 : ℤ))) normal disaster radius
  let userAvg := (um.1 + um.2) / 2
  let optimalAvg := (om.1 + om.2) / 2
  if 0 < optimalAvg then
    min 100 (100 * userAvg / optimalAvg + locationBonus user opt.1)
  else 50

end EnergySim
namespace EnergySim

lemma cells_one : cells 1 = [(0,0)] := rfl

lemma cells_two : cells 2 = [(0,0),(0,1),(1,0),(1,1)] := rfl

lemma greedyIter_zero (n : ℕ) (dis : ℕ → ℕ → ℚ) (r : ℕ) :
    greedyIter n dis r 0 = ([], fun _ _ => false) := rfl

/-- The inner if-sum of `score` as a sum over a filtered product finset. -/
lemma score_eq_filter_sum (n : ℕ) (dis : ℕ → ℕ → ℚ) (radius : ℕ)
    (cov : ℕ → ℕ → Bool) (i j : ℕ) :
    score n dis radius cov i j =
      ∑ d in (Finset.Icc (-(radius : ℤ)) (radius : ℤ) ×ˢ
              Finset.Icc (-(radius : ℤ)) (radius : ℤ)).filter fun d =>
          0 ≤ (i : ℤ) + d.1 ∧ (i : ℤ) + d.1 < (n : ℤ) ∧
          0 ≤ (j : ℤ) + d.2 ∧ (j : ℤ) + d.2 < (n : ℤ) ∧
          d.1 * d.1 + d.2 * d.2 ≤ (radius : ℤ) * (radius : ℤ) ∧
          cov ((i : ℤ) + d.1).toNat ((j : ℤ) + d.2).toNat = false,
        dis ((i : ℤ) + d.1).toNat ((j : ℤ) + d.2).toNat := by
  rw [Finset.sum_filter, Finset.sum_product]
  rfl

lemma score_eq_marginalScore (n : ℕ) (dis : ℕ → ℕ → ℚ) (radius : ℕ)
    (cov : ℕ → ℕ → Bool) (i j : ℕ) :
    score n dis radius cov i j = marginalScore n dis radius cov i j := by
  rw [score_eq_filter_sum, marginalScore]
  refine Finset.sum_nbij'
    (fun d => (((i : ℤ) + d.1).toNat, ((j : ℤ) + d.2).toNat))
    (fun p => ((p.1 : ℤ) - i, (p.2 : ℤ) - j)) ?_ ?_ ?_ ?_ ?_
  · rintro ⟨di, dj⟩ hd
    simp only [Finset.mem_filter, Finset.mem_product, Finset.mem_Icc] at hd ⊢
    obtain ⟨-, h1, h2, h3, h4, h5, h6⟩ := hd
    have e1 : ((((i : ℤ) + di).toNat : ℤ)) = (i : ℤ) + di := Int.toNat_of_nonneg h1
    have e2 : ((((j : ℤ) + dj).toNat : ℤ)) = (j : ℤ) + dj := Int.toNat_of_nonneg h3
    refine ⟨⟨?_, ?_⟩, ?_, h6⟩
    · rw [Finset.mem_range]; omega
    · rw [Finset.mem_range]; omega
    · rw [e1, e2]
      nlinarith [h5]
  · rintro ⟨a, b⟩ hp
    simp only [Finset.mem_filter, Finset.mem_product, Finset.mem_range] at hp
    obtain ⟨⟨ha, hb⟩, hdist, hcov⟩ := hp
    simp only [Finset.mem_filter, Finset.mem_product, Finset.mem_Icc]
    have h1 : 0 ≤ ((a : ℤ) - i) * ((a : ℤ) - i) := mul_self_nonneg _
    have h2 : 0 ≤ ((b : ℤ) - j) * ((b : ℤ) - j) := mul_self_nonneg _
    have hr : (0 : ℤ) ≤ radius := Int.natCast_nonneg radius
    refine ⟨⟨⟨?_, ?_⟩, ?_, ?_⟩, ?_, ?_, ?_, ?_, ?_, ?_⟩
    · nlinarith [sq_nonneg ((a : ℤ) - i + radius)]
    · nlinarith [sq_nonneg ((a : ℤ) - i - radius)]
    · nlinarith [sq_nonneg ((b : ℤ) - j + radius)]
    · nlinarith [sq_nonneg ((b : ℤ) - j - radius)]
    · omega
    · omega
    · omega
    · omega
    · nlinarith [hdist]
    · have e1 : ((i : ℤ) + ((a : ℤ) - i)).toNat = a := by omega
      have e2 : ((j : ℤ) + ((b : ℤ) - j)).toNat = b := by omega
      rw [e1, e2]; exact hcov
  · rintro ⟨di, dj⟩ hd
    simp only [Finset.mem_filter, Finset.mem_product, Finset.mem_Icc] at hd
    obtain ⟨-, h1, h2, h3, h4, -, -⟩ := hd
    simp only [Prod.mk.injEq]
    constructor <;> omega
  · rintro ⟨a, b⟩ hp
    simp only [Prod.mk.injEq]
    constructor <;> omega
  · rintro ⟨di, dj⟩ hd
    rfl

end EnergySim

namespace EnergySim

/-- Full characterisation of the best-candidate scan: the final score bounds
every candidate's score, and either no candidate beat the initial state, or
the result is the first candidate in scan order attaining the final score. -/
lemma foldl_selectStep_spec (locs : List (ℕ × ℕ)) (f : ℕ × ℕ → ℚ)
    (L : List (ℕ × ℕ)) (st : (ℕ × ℕ) × ℚ) :
    st.2 ≤ (L.foldl (selectStep locs f) st).2 ∧
    (∀ c ∈ L, c ∉ locs → f c ≤ (L.foldl (selectStep locs f) st).2) ∧
    (L.foldl (selectStep locs f) st = st ∨
      ((L.foldl (selectStep locs f) st).1 ∉ locs ∧
       f (L.foldl (selectStep locs f) st).1 = (L.foldl (selectStep locs f) st).2 ∧
       st.2 < (L.foldl (selectStep locs f) st).2 ∧
       ∃ L₁ L₂, L = L₁ ++ (L.foldl (selectStep locs f) st).1 :: L₂ ∧
         ∀ c ∈ L₁, c ∉ locs → f c < (L.foldl (selectStep locs f) st).2)) := by
  induction L generalizing st with
  | nil => exact ⟨le_refl _, by simp, Or.inl rfl⟩
  | cons c L ih =>
    by_cases hc : c ∈ locs
    · have hstep : selectStep locs f st c = st := by
        simp [selectStep, hc]
      rw [List.foldl_cons, hstep]
      obtain ⟨h1, h2, h3⟩ := ih st
      refine ⟨h1, ?_, ?_⟩
      · intro d hd hdl
        rcases List.mem_cons.mp hd with rfl | hd'
        · exact absurd hc hdl
        · exact h2 d hd' hdl
      · rcases h3 with h3 | ⟨hn, he, hlt, L₁, L₂, hdec, hsm⟩
        · exact Or.inl h3
        · refine Or.inr ⟨hn, he, hlt, c :: L₁, L₂,
            by rw [List.cons_append, ← hdec], ?_⟩
          intro d hd hdl
          rcases List.mem_cons.mp hd with rfl | hd'
          · exact absurd hc hdl
          · exact hsm d hd' hdl
    · by_cases hlt : st.2 < f c
      · have hstep : selectStep locs f st c = (c, f c) := by
          simp [selectStep, hc, hlt]
        rw [List.foldl_cons, hstep]
        obtain ⟨h1, h2, h3⟩ := ih (c, f c)
        refine ⟨le_trans (le_of_lt hlt) h1, ?_, ?_⟩
        · intro d hd hdl
          rcases List.mem_cons.mp hd with rfl | hd'
          · exact h1
          · exact h2 d hd' hdl
        · rcases h3 with h3 | ⟨hn, he, hlt', L₁, L₂, hdec, hsm⟩
          · rw [h3]
            exact Or.inr ⟨hc, rfl, hlt, [], L, rfl, by simp⟩
          · refine Or.inr ⟨hn, he, lt_trans hlt hlt', c :: L₁, L₂,
              by rw [List.cons_append, ← hdec], ?_⟩
            intro d hd hdl
            rcases List.mem_cons.mp hd with rfl | hd'
            · exact hlt'
            · exact hsm d hd' hdl
      · have hstep : selectStep locs f st c = st := by
          simp [selectStep, hc, hlt]
        rw [List.foldl_cons, hstep]
        obtain ⟨h1, h2, h3⟩ := ih st
        refine ⟨h1, ?_, ?_⟩
        · intro d hd hdl
          rcases List.mem_cons.mp hd with rfl | hd'
          · exact le_trans (not_lt.mp hlt) h1
          · exact h2 d hd' hdl
        · rcases h3 with h3 | ⟨hn, he, hlt', L₁, L₂, hdec, hsm⟩
          · exact Or.inl h3
          · refine Or.inr ⟨hn, he, hlt', c :: L₁, L₂,
              by rw [List.cons_append, ← hdec], ?_⟩
            intro d hd hdl
            rcases List.mem_cons.mp hd with rfl | hd'
            · exact lt_of_le_of_lt (not_lt.mp hlt) hlt'
            · exact hsm d hd' hdl

end EnergySim

namespace EnergySim

/-- When some candidate has positive score, the scan returns the first
candidate in row-major order attaining the maximal candidate score. -/
lemma selectBest_of_exists_pos (n : ℕ) (locs : List (ℕ × ℕ)) (f : ℕ × ℕ → ℚ)
    (h : ∃ c ∈ cells n, c ∉ locs ∧ 0 < f c) :
    (selectBest n locs f).1 ∉ locs ∧
    f (selectBest n locs f).1 = (selectBest n locs f).2 ∧
    (∀ c ∈ cells n, c ∉ locs → f c ≤ f (selectBest n locs f).1) ∧
    ∃ L₁ L₂, cells n = L₁ ++ (selectBest n locs f).1 :: L₂ ∧
      ∀ c ∈ L₁, c ∉ locs → f c < f (selectBest n locs f).1 := by
  obtain ⟨c, hcm, hcl, hcp⟩ := h
  have hsb : selectBest n locs f =
      (cells n).foldl (selectStep locs f) ((0, 0), 0) := rfl
  obtain ⟨h1, h2, h3⟩ := foldl_selectStep_spec locs f (cells n) ((0, 0), 0)
  rw [← hsb] at h1 h2 h3
  rcases h3 with h3 | ⟨hn, he, -, L₁, L₂, hdec, hsm⟩
  · exfalso
    have hle := h2 c hcm hcl
    rw [h3] at hle
    exact absurd (lt_of_lt_of_le hcp hle) (lt_irrefl _)
  · refine ⟨hn, he, ?_, L₁, L₂, hdec, ?_⟩
    · intro d hd hdl
      rw [he]; exact h2 d hd hdl
    · intro d hd hdl
      rw [he]; exact hsm d hd hdl

/-- When no candidate has positive score, the scan keeps its initial state
`((0,0), 0)`, whether or not `(0,0)` is already a chosen location. -/
lemma selectBest_of_all_nonpos (n : ℕ) (locs : List (ℕ × ℕ)) (f : ℕ × ℕ → ℚ)
    (h : ∀ c ∈ cells n, c ∉ locs → f c ≤ 0) :
    selectBest n locs f = ((0, 0), 0) := by
  have hsb : selectBest n locs f =
      (cells n).foldl (selectStep locs f) ((0, 0), 0) := rfl
  obtain ⟨-, -, h3⟩ := foldl_selectStep_spec locs f (cells n) ((0, 0), 0)
  rw [← hsb] at h3
  rcases h3 with h3 | ⟨hn, he, hlt, L₁, L₂, hdec, -⟩
  · exact h3
  · exfalso
    have hmem : (selectBest n locs f).1 ∈ cells n := by
      rw [hdec]
      exact List.mem_append.mpr (Or.inr (List.mem_cons_self _ _))
    have hle : f (selectBest n locs f).1 ≤ 0 := h _ hmem hn
    rw [he] at hle
    exact absurd (lt_of_lt_of_le hlt hle) (lt_irrefl _)

end EnergySim

namespace EnergySim

lemma greedyIter_succ_fst (n : ℕ) (disaster : ℕ → ℕ → ℚ) (radius m : ℕ) :
    (greedyIter n disaster radius (m + 1)).1 =
      (greedyIter n disaster radius m).1 ++
        [(selectBest n (greedyIter n disaster radius m).1
            fun c => score n disaster radius (greedyIter n disaster radius m).2 c.1 c.2).1] := rfl

/-- C1: at every greedy iteration with a positive-score candidate, the site
appended to the placement is the first cell in row-major scan order, among
cells not already chosen, attaining the maximum marginal score; earlier
cells in scan order lose even on ties. -/
theorem greedy_appends_first_rowmajor_argmax
    (n : ℕ) (disaster : ℕ → ℕ → ℚ) (radius k m : ℕ) (_hm : m < k)
    (hpos : ∃ c ∈ cells n, c ∉ (greedyIter n disaster radius m).1 ∧
        0 < marginalScore n disaster radius (greedyIter n disaster radius m).2 c.1 c.2) :
    ∃ b L₁ L₂,
      (greedyIter n disaster radius (m + 1)).1 =
        (greedyIter n disaster radius m).1 ++ [b] ∧
      b ∉ (greedyIter n disaster radius m).1 ∧
      cells n = L₁ ++ b :: L₂ ∧
      (∀ c ∈ cells n, c ∉ (greedyIter n disaster radius m).1 →
        marginalScore n disaster radius (greedyIter n disaster radius m).2 c.1 c.2 ≤
          marginalScore n disaster radius (greedyIter n disaster radius m).2 b.1 b.2) ∧
      (∀ c ∈ L₁, c ∉ (greedyIter n disaster radius m).1 →
        marginalScore n disaster radius (greedyIter n disaster radius m).2 c.1 c.2 <
          marginalScore n disaster radius (greedyIter n disaster radius m).2 b.1 b.2) := by
  classical
  set locs := (greedyIter n disaster radius m).1 with hlocs
  set cov := (greedyIter n disaster radius m).2 with hcov
  set f : ℕ × ℕ → ℚ := fun c => score n disaster radius cov c.1 c.2 with hf
  have hfm : ∀ c : ℕ × ℕ, f c = marginalScore n disaster radius cov c.1 c.2 := by
    intro c; rw [hf]; exact score_eq_marginalScore n disaster radius cov c.1 c.2
  have hpos' : ∃ c ∈ cells n, c ∉ locs ∧ 0 < f c := by
    obtain ⟨c, hcm, hcl, hcp⟩ := hpos
    exact ⟨c, hcm, hcl, by rw [hfm]; exact hcp⟩
  obtain ⟨hn, -, hmax, L₁, L₂, hdec, hsm⟩ := selectBest_of_exists_pos n locs f hpos'
  refine ⟨(selectBest n locs f).1, L₁, L₂, greedyIter_succ_fst n disaster radius m,
    hn, hdec, ?_, ?_⟩
  · intro c hc hcl
    have := hmax c hc hcl
    rw [hfm, hfm] at this
    exact this
  · intro c hc hcl
    have := hsm c hc hcl
    rw [hfm, hfm] at this
    exact this

/-- C5: at a greedy iteration where every candidate's marginal score is
zero, the appended site is `(0, 0)`, whether or not `(0, 0)` was already
chosen at an earlier iteration. -/
theorem greedy_zero_scores_pick_origin
    (n : ℕ) (disaster : ℕ → ℕ → ℚ) (radius k m : ℕ) (_hm : m < k)
    (hz : ∀ c ∈ cells n, c ∉ (greedyIter n disaster radius m).1 →
        marginalScore n disaster radius (greedyIter n disaster radius m).2 c.1 c.2 = 0) :
    (greedyIter n disaster radius (m + 1)).1 =
      (greedyIter n disaster radius m).1 ++ [(0, 0)] := by
  set locs := (greedyIter n disaster radius m).1 with hlocs
  set cov := (greedyIter n disaster radius m).2 with hcov
  set f : ℕ × ℕ → ℚ := fun c => score n disaster radius cov c.1 c.2 with hf
  have hfm : ∀ c : ℕ × ℕ, f c = marginalScore n disaster radius cov c.1 c.2 := by
    intro c; rw [hf]; exact score_eq_marginalScore n disaster radius cov c.1 c.2
  have hz' : ∀ c ∈ cells n, c ∉ locs → f c ≤ 0 := by
    intro c hc hcl
    rw [hfm]
    exact le_of_eq (hz c hc hcl)
  have hsel := selectBest_of_all_nonpos n locs f hz'
  rw [greedyIter_succ_fst n disaster radius m]
  rw [← hlocs, ← hcov, ← hf, hsel]

/-- C6: the greedy loop always runs exactly `k` iterations and the returned
placement has length exactly `k`, whatever the surfaces and radius. -/
theorem optimize_reactors_length
    (n : ℕ) (normal disaster : ℕ → ℕ → ℚ) (k radius : ℕ) :
    ((optimize_reactors n normal disaster k radius).1).length = k := by
  have h : ∀ m : ℕ, ((greedyIter n disaster radius m).1).length = m := by
    intro m
    induction m with
    | zero => rfl
    | succ m ih =>
      rw [greedyIter_succ_fst, List.length_append, ih]
      rfl
  exact h k

/-- C9: when every iteration has a positive-score candidate, the placement
returned by the optimizer has pairwise distinct sites. -/
theorem optimize_reactors_nodup
    (n : ℕ) (normal disaster : ℕ → ℕ → ℚ) (k radius : ℕ)
    (hpos : ∀ m < k, ∃ c ∈ cells n, c ∉ (greedyIter n disaster radius m).1 ∧
        0 < marginalScore n disaster radius (greedyIter n disaster radius m).2 c.1 c.2) :
    ((optimize_reactors n normal disaster k radius).1).Nodup := by
  suffices h : ∀ m ≤ k, ((greedyIter n disaster radius m).1).Nodup by
    exact h k (le_refl k)
  intro m hmk
  induction m with
  | zero => exact List.nodup_nil
  | succ m ih =>
    have hm : m < k := lt_of_lt_of_le (Nat.lt_succ_self m) hmk
    set locs := (greedyIter n disaster radius m).1 with hlocs
    set cov := (greedyIter n disaster radius m).2 with hcov
    set f : ℕ × ℕ → ℚ := fun c => score n disaster radius cov c.1 c.2 with hf
    have hfm : ∀ c : ℕ × ℕ, f c = marginalScore n disaster radius cov c.1 c.2 := by
      intro c; rw [hf]; exact score_eq_marginalScore n disaster radius cov c.1 c.2
    have hpos' : ∃ c ∈ cells n, c ∉ locs ∧ 0 < f c := by
      obtain ⟨c, hcm, hcl, hcp⟩ := hpos m hm
      exact ⟨c, hcm, hcl, by rw [hfm]; exact hcp⟩
    obtain ⟨hn, -, -, -⟩ := selectBest_of_exists_pos n locs f hpos'
    rw [greedyIter_succ_fst n disaster radius m]
    rw [← hlocs, ← hcov, ← hf]
    rw [List.nodup_append]
    exact ⟨ih (le_of_lt hm), List.nodup_singleton _, by
      intro a ha hb
      simp only [List.mem_singleton] at hb
      subst hb
      exact hn ha⟩

end EnergySim

namespace EnergySim

/-- A sum of two integer squares is nonpositive exactly when both factors
vanish. -/
lemma sq_dist_le_zero_iff (a c : ℕ) (b d : ℕ) :
    ((a : ℤ) - c) * ((a : ℤ) - c) + ((b : ℤ) - d) * ((b : ℤ) - d) ≤ 0 ↔
      a = c ∧ b = d := by
  constructor
  · intro h
    have h1 := mul_self_nonneg ((a : ℤ) - c)
    have h2 := mul_self_nonneg ((b : ℤ) - d)
    have e1 : ((a : ℤ) - c) * ((a : ℤ) - c) = 0 := by linarith
    have e2 : ((b : ℤ) - d) * ((b : ℤ) - d) = 0 := by linarith
    rw [mul_self_eq_zero, sub_eq_zero] at e1 e2
    exact ⟨by exact_mod_cast e1, by exact_mod_cast e2⟩
  · rintro ⟨rfl, rfl⟩
    simp

/-- With radius 0 a candidate's marginal score is just its own cell's
uncovered demand. -/
lemma marginalScore_radius_zero (n : ℕ) (dis : ℕ → ℕ → ℚ)
    (cov : ℕ → ℕ → Bool) (i j : ℕ) :
    marginalScore n dis 0 cov i j =
      if i < n ∧ j < n ∧ cov i j = false then dis i j else 0 := by
  rw [marginalScore, Finset.sum_filter]
  by_cases hin : i < n ∧ j < n
  · rw [Finset.sum_eq_single (i, j)]
    · have hd : ((i : ℤ) - i) * ((i : ℤ) - i) + ((j : ℤ) - j) * ((j : ℤ) - j) ≤
          ((0 : ℕ) : ℤ) * ((0 : ℕ) : ℤ) := by simp
      by_cases hcov : cov i j = false
      · rw [if_pos ⟨hd, hcov⟩, if_pos ⟨hin.1, hin.2, hcov⟩]
      · rw [if_neg, if_neg]
        · intro h; exact hcov h.2.2
        · intro h; exact hcov h.2
    · rintro ⟨a, b⟩ hab hne
      rw [if_neg]
      rintro ⟨hdist, -⟩
      refine hne ?_
      have : a = i ∧ b = j := by
        rw [← sq_dist_le_zero_iff a i b j]
        simpa using hdist
      rw [this.1, this.2]
    · intro habs
      exfalso
      refine habs ?_
      rw [Finset.mem_product, Finset.mem_range, Finset.mem_range]
      exact ⟨hin.1, hin.2⟩
  · rw [if_neg fun h => hin ⟨h.1, h.2.1⟩]
    apply Finset.sum_eq_zero
    rintro ⟨a, b⟩ hab
    rw [Finset.mem_product, Finset.mem_range, Finset.mem_range] at hab
    rw [if_neg]
    rintro ⟨hdist, -⟩
    have : a = i ∧ b = j := by
      rw [← sq_dist_le_zero_iff a i b j]
      simpa using hdist
    exact hin ⟨this.1 ▸ hab.1, this.2 ▸ hab.2⟩

/-- With radius 0 marking coverage marks only the site's own cell. -/
lemma markCoverage_radius_zero (n : ℕ) (cov : ℕ → ℕ → Bool) (p : ℕ × ℕ)
    (a b : ℕ) :
    markCoverage n 0 cov p a b =
      if a < n ∧ b < n ∧ a = p.1 ∧ b = p.2 then true else cov a b := by
  rw [markCoverage]
  refine if_congr ?_ rfl rfl
  constructor
  · rintro ⟨h1, h2, h3⟩
    refine ⟨h1, h2, ?_⟩
    rw [← sq_dist_le_zero_iff a p.1 b p.2]
    simpa using h3
  · rintro ⟨h1, h2, h3, h4⟩
    refine ⟨h1, h2, ?_⟩
    subst h3; subst h4
    simp

/-- The all-false coverage map and empty placement of iteration 0, and the
score of a zero disaster surface, are all trivial. -/
lemma marginalScore_zeroSurface (n radius : ℕ) (cov : ℕ → ℕ → Bool)
    (i j : ℕ) : marginalScore n zeroSurface radius cov i j = 0 := by
  rw [marginalScore]
  exact Finset.sum_eq_zero fun p _ => rfl

end EnergySim

namespace EnergySim

lemma greedyIter_succ_snd (n : ℕ) (dis : ℕ → ℕ → ℚ) (radius m : ℕ) :
    (greedyIter n dis radius (m + 1)).2 =
      markCoverage n radius (greedyIter n dis radius m).2
        ((selectBest n (greedyIter n dis radius m).1
            fun c => score n dis radius (greedyIter n dis radius m).2 c.1 c.2).1) := rfl

lemma demo_selectBest :
    selectBest 2 []
      (fun c => score 2 demoSurface 0 (fun _ _ => false) c.1 c.2) = ((0, 1), 3) := by
  have hf : (fun c : ℕ × ℕ => score 2 demoSurface 0 (fun _ _ => false) c.1 c.2) =
      fun c => if c.1 < 2 ∧ c.2 < 2 then demoSurface c.1 c.2 else 0 := by
    funext c
    rw [score_eq_marginalScore, marginalScore_radius_zero]
    simp
  rw [selectBest, cells_two, hf]
  simp only [List.foldl_cons, List.foldl_nil, selectStep]
  norm_num [demoSurface]

lemma demo_iter1_fst : (greedyIter 2 demoSurface 0 1).1 = [(0, 1)] := by
  rw [greedyIter_succ_fst, greedyIter_zero]
  rw [show (([], fun _ _ => false) :
      List (ℕ × ℕ) × (ℕ → ℕ → Bool)).1 = [] from rfl]
  rw [show (([], fun _ _ => false) :
      List (ℕ × ℕ) × (ℕ → ℕ → Bool)).2 = fun _ _ => false from rfl]
  rw [demo_selectBest]
  rfl

lemma demo_iter1_snd (a b : ℕ) :
    (greedyIter 2 demoSurface 0 1).2 a b = if a = 0 ∧ b = 1 then true else false := by
  rw [greedyIter_succ_snd, greedyIter_zero]
  rw [show (([], fun _ _ => false) :
      List (ℕ × ℕ) × (ℕ → ℕ → Bool)).1 = [] from rfl]
  rw [show (([], fun _ _ => false) :
      List (ℕ × ℕ) × (ℕ → ℕ → Bool)).2 = fun _ _ => false from rfl]
  rw [demo_selectBest]
  rw [show ((((0 : ℕ), (1 : ℕ)), (3 : ℚ)).1) = ((0 : ℕ), (1 : ℕ)) from rfl]
  rw [markCoverage_radius_zero]
  by_cases h : a = 0 ∧ b = 1
  · rw [if_pos ⟨by omega, by omega, h.1, h.2⟩, if_pos h]
  · rw [if_neg fun hc => h ⟨hc.2.2.1, hc.2.2.2⟩, if_neg h]

lemma demo_totalSum : totalSum 2 demoSurface = 11 / 2 := by
  rw [totalSum]
  norm_num [Finset.sum_range_succ, demoSurface]

lemma demo_coverageSum : coverageSum 2 demoSurface (greedyIter 2 demoSurface 0 1).2 = 3 := by
  rw [coverageSum]
  norm_num [Finset.sum_range_succ, demoSurface, demo_iter1_snd]

lemma demo_optimize_fst : (optimize_reactors 2 demoSurface demoSurface 1 0).1 = [(0, 1)] :=
  demo_iter1_fst

lemma demo_optimize_normal :
    (optimize_reactors 2 demoSurface demoSurface 1 0).2.1 = 600 / 11 := by
  show (if 0 < totalSum 2 demoSurface
    then coverageSum 2 demoSurface (greedyIter 2 demoSurface 0 1).2 /
      totalSum 2 demoSurface * 100 else 0) = 600 / 11
  rw [demo_totalSum, demo_coverageSum]
  norm_num

lemma demo_optimize_disaster :
    (optimize_reactors 2 demoSurface demoSurface 1 0).2.2 = 600 / 11 := by
  show (if 0 < totalSum 2 demoSurface
    then coverageSum 2 demoSurface (greedyIter 2 demoSurface 0 1).2 /
      totalSum 2 demoSurface * 100 else 0) = 600 / 11
  rw [demo_totalSum, demo_coverageSum]
  norm_num

lemma demo_coverage_origin :
    calculate_coverage 2 [((0 : ℤ), (0 : ℤ))] 0 demoSurface = 40 := by
  rw [calculate_coverage]
  norm_num [Finset.sum_range_succ, demoSurface, coveredBy]

lemma demo_coverage_site01 :
    calculate_coverage 2 [((0 : ℤ), (1 : ℤ))] 0 demoSurface = 60 := by
  rw [calculate_coverage]
  norm_num [Finset.sum_range_succ, demoSurface, coveredBy]

end EnergySim

namespace EnergySim

lemma locationBonus_nonneg (user : List (ℤ × ℤ)) (optimal : List (ℕ × ℕ)) :
    0 ≤ locationBonus user optimal := by
  rw [locationBonus]
  positivity

lemma min_min_add_of_nonneg (x b : ℚ) (hb : 0 ≤ b) :
    min 100 (min 100 x + b) = min 100 (x + b) := by
  rcases le_total x 100 with h | h
  · rw [min_eq_right h]
  · rw [min_eq_left h]
    rw [min_eq_left (by linarith), min_eq_left (by linarith)]

/-- C2 (amended): the final score uses the optimizer's own (no-threshold)
metrics for `optimalAvg`, while `userAvg` comes from the thresholded
scorer; with that reading the published single-min formula holds, since
capping before adding the nonnegative bonus and capping again agrees with
adding first and capping once. -/
theorem solve_challenge_score_formula (n : ℕ) (user : List (ℤ × ℤ))
    (normal disaster : ℕ → ℕ → ℚ) (k radius : ℕ) :
    solve_challenge_score n user normal disaster k radius =
      (if 0 < ((optimize_reactors n normal disaster k radius).2.1 +
               (optimize_reactors n normal disaster k radius).2.2) / 2 then
        min 100
          (100 * (((calculate_user_performance n user normal disaster radius).1 +
                   (calculate_user_performance n user normal disaster radius).2) / 2) /
             (((optimize_reactors n normal disaster k radius).2.1 +
               (optimize_reactors n normal disaster k radius).2.2) / 2) +
           locationBonus user (optimize_reactors n normal disaster k radius).1)
      else 50) := by
  rw [solve_challenge_score]
  set u := ((calculate_user_performance n user normal disaster radius).1 +
            (calculate_user_performance n user normal disaster radius).2) / 2 with hu
  set o := ((optimize_reactors n normal disaster k radius).2.1 +
            (optimize_reactors n normal disaster k radius).2.2) / 2 with ho
  by_cases h : 0 < o
  · rw [if_pos h, if_pos h]
    rw [min_min_add_of_nonneg _ _ (locationBonus_nonneg _ _)]
    rw [div_mul_eq_mul_div, mul_comm]
  · rw [if_neg h, if_neg h]

/-- C2 (counterexample): on a concrete 2×2 scenario the implemented score,
which divides by the optimizer's own no-threshold coverage average, differs
from the claim's formula, which divides by the thresholded
`scorePlacement` average of the optimizer's sites. -/
theorem solve_challenge_score_claim_counterexample :
    solve_challenge_score 2 [((0 : ℤ), (0 : ℤ))] demoSurface demoSurface 1 0 = 220 / 3 ∧
    claimedRelativeScore 2 [((0 : ℤ), (0 : ℤ))] demoSurface demoSurface 1 0 = 200 / 3 ∧
    (220 / 3 : ℚ) ≠ 200 / 3 := by
  refine ⟨?_, ?_, by norm_num⟩
  · rw [solve_challenge_score]
    rw [calculate_user_performance, demo_coverage_origin]
    rw [demo_optimize_normal, demo_optimize_disaster, demo_optimize_fst]
    have hb : locationBonus [((0 : ℤ), (0 : ℤ))] [(0, 1)] = 0 := by
      rw [locationBonus]
      norm_num
    rw [hb]
    norm_num
  · rw [claimedRelativeScore]
    rw [demo_optimize_fst]
    rw [show List.map (fun p : ℕ × ℕ => ((p.1 : ℤ), (p.2 : ℤ))) [(0, 1)] =
        [((0 : ℤ), (1 : ℤ))] from rfl]
    rw [calculate_user_performance, calculate_user_performance,
      demo_coverage_origin, demo_coverage_site01]
    have hb : locationBonus [((0 : ℤ), (0 : ℤ))] [(0, 1)] = 0 := by
      rw [locationBonus]
      norm_num
    rw [hb]
    norm_num

end EnergySim

namespace EnergySim

lemma coverageSum_eq_filter_sum (n : ℕ) (s : ℕ → ℕ → ℚ) (cov : ℕ → ℕ → Bool) :
    coverageSum n s cov =
      ∑ p in (Finset.range n ×ˢ Finset.range n).filter
        (fun p => cov p.1 p.2 = true), s p.1 p.2 := by
  rw [Finset.sum_filter, Finset.sum_product, coverageSum]
  apply Finset.sum_congr rfl
  intro i hi
  apply Finset.sum_congr rfl
  intro j hj
  by_cases h : cov i j <;> simp [h]

lemma totalSum_nonneg (n : ℕ) (s : ℕ → ℕ → ℚ) (hs : ∀ i j, 0 ≤ s i j) :
    0 ≤ totalSum n s := by
  rw [totalSum]
  exact Finset.sum_nonneg fun i _ => Finset.sum_nonneg fun j _ => hs i j

/-- C3: the optimizer's self-reported percentage for a surface is
100 × (demand on cells its coverage map marks) / (whole-surface demand),
with no significance threshold on either side, and 0 for a zero-total
surface. -/
theorem optimize_reactors_metric_formula
    (n : ℕ) (normal disaster : ℕ → ℕ → ℚ) (k radius : ℕ)
    (hn : ∀ i j, 0 ≤ normal i j) (hd : ∀ i j, 0 ≤ disaster i j) :
    (optimize_reactors n normal disaster k radius).2.1 =
      (if totalSum n normal = 0 then 0 else
        100 * (∑ p in (Finset.range n ×ˢ Finset.range n).filter
            (fun p => (greedyIter n disaster radius k).2 p.1 p.2 = true),
          normal p.1 p.2) / totalSum n normal) ∧
    (optimize_reactors n normal disaster k radius).2.2 =
      (if totalSum n disaster = 0 then 0 else
        100 * (∑ p in (Finset.range n ×ˢ Finset.range n).filter
            (fun p => (greedyIter n disaster radius k).2 p.1 p.2 = true),
          disaster p.1 p.2) / totalSum n disaster) := by
  constructor
  · show (if 0 < totalSum n normal then
        coverageSum n normal (greedyIter n disaster radius k).2 /
          totalSum n normal * 100 else 0) = _
    by_cases h0 : totalSum n normal = 0
    · rw [if_pos h0, h0]
      norm_num
    · rw [if_neg h0,
        if_pos (lt_of_le_of_ne (totalSum_nonneg n normal hn) (Ne.symm h0)),
        coverageSum_eq_filter_sum]
      ring
  · show (if 0 < totalSum n disaster then
        coverageSum n disaster (greedyIter n disaster radius k).2 /
          totalSum n disaster * 100 else 0) = _
    by_cases h0 : totalSum n disaster = 0
    · rw [if_pos h0, h0]
      norm_num
    · rw [if_neg h0,
        if_pos (lt_of_le_of_ne (totalSum_nonneg n disaster hd) (Ne.symm h0)),
        coverageSum_eq_filter_sum]
      ring

lemma demoSurface_nonneg : ∀ i j, 0 ≤ demoSurface i j := by
  intro i j
  rw [demoSurface]
  repeat' split
  all_goals norm_num

/-- Witness for the optimizer-metric formula at a concrete scenario. -/
theorem optimize_reactors_metric_formula_witness :
    (optimize_reactors 2 demoSurface demoSurface 1 0).2.1 =
      (if totalSum 2 demoSurface = 0 then 0 else
        100 * (∑ p in (Finset.range 2 ×ˢ Finset.range 2).filter
            (fun p => (greedyIter 2 demoSurface 0 1).2 p.1 p.2 = true),
          demoSurface p.1 p.2) / totalSum 2 demoSurface) ∧
    (optimize_reactors 2 demoSurface demoSurface 1 0).2.2 =
      (if totalSum 2 demoSurface = 0 then 0 else
        100 * (∑ p in (Finset.range 2 ×ˢ Finset.range 2).filter
            (fun p => (greedyIter 2 demoSurface 0 1).2 p.1 p.2 = true),
          demoSurface p.1 p.2) / totalSum 2 demoSurface) :=
  optimize_reactors_metric_formula 2 demoSurface demoSurface 1 0
    demoSurface_nonneg demoSurface_nonneg

end EnergySim

namespace EnergySim

lemma coveredBy_iff (sites : List (ℤ × ℤ)) (radius : ℕ) (i j : ℕ) :
    coveredBy sites radius i j = true ↔
      ∃ s ∈ sites, ((i : ℤ) - s.1) * ((i : ℤ) - s.1) +
        ((j : ℤ) - s.2) * ((j : ℤ) - s.2) ≤ (radius : ℤ) * (radius : ℤ) := by
  rw [coveredBy, List.any_eq_true]
  simp only [decide_eq_true_eq]

lemma thresholdSum_nonneg (n : ℕ) (d : ℕ → ℕ → ℚ) :
    0 ≤ ∑ p in (Finset.range n ×ˢ Finset.range n).filter
      (fun p => 1 < d p.1 p.2), d p.1 p.2 := by
  apply Finset.sum_nonneg
  intro p hp
  rw [Finset.mem_filter] at hp
  exact le_of_lt (lt_trans zero_lt_one hp.2)

lemma calculate_coverage_formula (n : ℕ) (sites : List (ℤ × ℤ)) (radius : ℕ)
    (demand : ℕ → ℕ → ℚ) :
    calculate_coverage n sites radius demand =
      (if (∑ p in (Finset.range n ×ˢ Finset.range n).filter
            (fun p => 1 < demand p.1 p.2), demand p.1 p.2) = 0 then 0 else
        100 * (∑ p in (Finset.range n ×ˢ Finset.range n).filter
            (fun p => 1 < demand p.1 p.2 ∧
              ∃ s ∈ sites, ((p.1 : ℤ) - s.1) * ((p.1 : ℤ) - s.1) +
                ((p.2 : ℤ) - s.2) * ((p.2 : ℤ) - s.2) ≤
                  (radius : ℤ) * (radius : ℤ)), demand p.1 p.2) /
          (∑ p in (Finset.range n ×ˢ Finset.range n).filter
            (fun p => 1 < demand p.1 p.2), demand p.1 p.2)) := by
  classical
  have hT : (∑ i in Finset.range n, ∑ j in Finset.range n,
      if 1 < demand i j then demand i j else 0) =
      ∑ p in (Finset.range n ×ˢ Finset.range n).filter
        (fun p => 1 < demand p.1 p.2), demand p.1 p.2 := by
    rw [Finset.sum_filter, Finset.sum_product]
  have hC : (∑ i in Finset.range n, ∑ j in Finset.range n,
      if 1 < demand i j ∧ coveredBy sites radius i j = true
      then demand i j else 0) =
      ∑ p in (Finset.range n ×ˢ Finset.range n).filter
        (fun p => 1 < demand p.1 p.2 ∧
          ∃ s ∈ sites, ((p.1 : ℤ) - s.1) * ((p.1 : ℤ) - s.1) +
            ((p.2 : ℤ) - s.2) * ((p.2 : ℤ) - s.2) ≤
              (radius : ℤ) * (radius : ℤ)), demand p.1 p.2 := by
    rw [Finset.sum_filter, Finset.sum_product]
    simp only [coveredBy_iff]
  rw [calculate_coverage]
  rw [hT, hC]
  by_cases h0 : (∑ p in (Finset.range n ×ˢ Finset.range n).filter
      (fun p => 1 < demand p.1 p.2), demand p.1 p.2) = 0
  · rw [if_pos h0, h0]
    norm_num
  · rw [if_neg h0,
      if_pos (lt_of_le_of_ne (thresholdSum_nonneg n demand) (Ne.symm h0))]
    ring

/-- C4: `scorePlacement` applies the significance threshold 1 to both the
numerator and the denominator of each surface's percentage, counts a
thresholded cell as covered when any listed site is within Euclidean
distance `radius` of it, and returns 0 for a surface with no cell above
the threshold. -/
theorem calculate_user_performance_formula (n : ℕ) (sites : List (ℤ × ℤ))
    (normal disaster : ℕ → ℕ → ℚ) (radius : ℕ) :
    calculate_user_performance n sites normal disaster radius =
      ((if (∑ p in (Finset.range n ×ˢ Finset.range n).filter
            (fun p => 1 < normal p.1 p.2), normal p.1 p.2) = 0 then 0 else
        100 * (∑ p in (Finset.range n ×ˢ Finset.range n).filter
            (fun p => 1 < normal p.1 p.2 ∧
              ∃ s ∈ sites, ((p.1 : ℤ) - s.1) * ((p.1 : ℤ) - s.1) +
                ((p.2 : ℤ) - s.2) * ((p.2 : ℤ) - s.2) ≤
                  (radius : ℤ) * (radius : ℤ)), normal p.1 p.2) /
          (∑ p in (Finset.range n ×ˢ Finset.range n).filter
            (fun p => 1 < normal p.1 p.2), normal p.1 p.2)),
       (if (∑ p in (Finset.range n ×ˢ Finset.range n).filter
            (fun p => 1 < disaster p.1 p.2), disaster p.1 p.2) = 0 then 0 else
        100 * (∑ p in (Finset.range n ×ˢ Finset.range n).filter
            (fun p => 1 < disaster p.1 p.2 ∧
              ∃ s ∈ sites, ((p.1 : ℤ) - s.1) * ((p.1 : ℤ) - s.1) +
                ((p.2 : ℤ) - s.2) * ((p.2 : ℤ) - s.2) ≤
                  (radius : ℤ) * (radius : ℤ)), disaster p.1 p.2) /
          (∑ p in (Finset.range n ×ˢ Finset.range n).filter
            (fun p => 1 < disaster p.1 p.2), disaster p.1 p.2))) := by
  rw [calculate_user_performance, calculate_coverage_formula,
    calculate_coverage_formula]

end EnergySim

namespace EnergySim

lemma markCoverage_mono (n radius : ℕ) (cov : ℕ → ℕ → Bool) (p : ℕ × ℕ)
    (a b : ℕ) (h : cov a b = true) : markCoverage n radius cov p a b = true := by
  rw [markCoverage]
  split
  · rfl
  · exact h

lemma greedyIter_cov_mono (n : ℕ) (dis : ℕ → ℕ → ℚ) (radius m : ℕ)
    (a b : ℕ) (h : (greedyIter n dis radius m).2 a b = true) :
    (greedyIter n dis radius (m + 1)).2 a b = true := by
  rw [greedyIter_succ_snd]
  exact markCoverage_mono _ _ _ _ _ _ h

lemma coverageSum_le (n : ℕ) (s : ℕ → ℕ → ℚ) (cov cov' : ℕ → ℕ → Bool)
    (hs : ∀ i j, 0 ≤ s i j)
    (h : ∀ a b, cov a b = true → cov' a b = true) :
    coverageSum n s cov ≤ coverageSum n s cov' := by
  rw [coverageSum, coverageSum]
  apply Finset.sum_le_sum
  intro i hi
  apply Finset.sum_le_sum
  intro j hj
  by_cases hc : cov i j = true
  · rw [hc, h i j hc]
  · rw [Bool.not_eq_true] at hc
    rw [hc]
    simp only [Bool.false_eq_true, if_false, mul_zero]
    apply mul_nonneg (hs i j)
    split
    · exact zero_le_one
    · exact le_refl 0

/-- C7: with nonnegative surfaces and a fixed radius, both reported
coverage percentages are monotone in the facility count. -/
theorem optimize_reactors_monotone_coverage
    (n : ℕ) (normal disaster : ℕ → ℕ → ℚ) (k radius : ℕ)
    (hn : ∀ i j, 0 ≤ normal i j) (hd : ∀ i j, 0 ≤ disaster i j) :
    (optimize_reactors n normal disaster k radius).2.1 ≤
      (optimize_reactors n normal disaster (k + 1) radius).2.1 ∧
    (optimize_reactors n normal disaster k radius).2.2 ≤
      (optimize_reactors n normal disaster (k + 1) radius).2.2 := by
  have hcov : ∀ a b, (greedyIter n disaster radius k).2 a b = true →
      (greedyIter n disaster radius (k + 1)).2 a b = true :=
    fun a b => greedyIter_cov_mono n disaster radius k a b
  constructor
  · show (if 0 < totalSum n normal then
        coverageSum n normal (greedyIter n disaster radius k).2 /
          totalSum n normal * 100 else 0) ≤
      (if 0 < totalSum n normal then
        coverageSum n normal (greedyIter n disaster radius (k + 1)).2 /
          totalSum n normal * 100 else 0)
    by_cases h0 : 0 < totalSum n normal
    · rw [if_pos h0, if_pos h0]
      have hle := coverageSum_le n normal _ _ hn hcov
      exact mul_le_mul_of_nonneg_right
        ((div_le_div_iff_of_pos_right h0).mpr hle) (by norm_num)
    · rw [if_neg h0, if_neg h0]
  · show (if 0 < totalSum n disaster then
        coverageSum n disaster (greedyIter n disaster radius k).2 /
          totalSum n disaster * 100 else 0) ≤
      (if 0 < totalSum n disaster then
        coverageSum n disaster (greedyIter n disaster radius (k + 1)).2 /
          totalSum n disaster * 100 else 0)
    by_cases h0 : 0 < totalSum n disaster
    · rw [if_pos h0, if_pos h0]
      have hle := coverageSum_le n disaster _ _ hd hcov
      exact mul_le_mul_of_nonneg_right
        ((div_le_div_iff_of_pos_right h0).mpr hle) (by norm_num)
    · rw [if_neg h0, if_neg h0]

end EnergySim

namespace EnergySim

lemma greedyIter_zero_fst (n : ℕ) (dis : ℕ → ℕ → ℚ) (r : ℕ) :
    (greedyIter n dis r 0).1 = [] := rfl

lemma greedyIter_zero_snd (n : ℕ) (dis : ℕ → ℕ → ℚ) (r : ℕ) :
    (greedyIter n dis r 0).2 = fun _ _ => false := rfl

lemma selectBest_zeroSurface (n radius : ℕ) (locs : List (ℕ × ℕ))
    (cov : ℕ → ℕ → Bool) :
    selectBest n locs (fun c => score n zeroSurface radius cov c.1 c.2) =
      ((0, 0), 0) := by
  apply selectBest_of_all_nonpos
  intro c hc hcl
  rw [score_eq_marginalScore, marginalScore_zeroSurface]

lemma greedyIter_zeroSurface_fst (n radius : ℕ) (k : ℕ) :
    (greedyIter n zeroSurface radius k).1 = List.replicate k ((0 : ℕ), (0 : ℕ)) := by
  induction k with
  | zero => rfl
  | succ k ih =>
    rw [greedyIter_succ_fst, ih, selectBest_zeroSurface]
    rw [show (((0, 0), (0 : ℚ)) : (ℕ × ℕ) × ℚ).1 = ((0 : ℕ), (0 : ℕ)) from rfl]
    rw [← List.replicate_succ' k]

lemma totalSum_zeroSurface (n : ℕ) : totalSum n zeroSurface = 0 := by
  rw [totalSum]
  exact Finset.sum_eq_zero fun i _ => Finset.sum_eq_zero fun j _ => rfl

/-- C8 shows the code side: no precondition is checked.  Requesting five
facilities on a 2×2 grid (k > R×C) returns five (duplicated) sites and two
percentages instead of failing with InvalidParameters. -/
theorem optimize_reactors_never_validates :
    (optimize_reactors 2 zeroSurface zeroSurface 5 0).1 =
      [(0, 0), (0, 0), (0, 0), (0, 0), (0, 0)] ∧
    (optimize_reactors 2 zeroSurface zeroSurface 5 0).2.1 = 0 ∧
    (optimize_reactors 2 zeroSurface zeroSurface 5 0).2.2 = 0 := by
  refine ⟨?_, ?_, ?_⟩
  · show (greedyIter 2 zeroSurface 0 5).1 = _
    rw [greedyIter_zeroSurface_fst]
    rfl
  · show (if 0 < totalSum 2 zeroSurface then
      coverageSum 2 zeroSurface (greedyIter 2 zeroSurface 0 5).2 /
        totalSum 2 zeroSurface * 100 else 0) = 0
    rw [totalSum_zeroSurface]
    norm_num
  · show (if 0 < totalSum 2 zeroSurface then
      coverageSum 2 zeroSurface (greedyIter 2 zeroSurface 0 5).2 /
        totalSum 2 zeroSurface * 100 else 0) = 0
    rw [totalSum_zeroSurface]
    norm_num

lemma calculate_coverage_all_covered (n : ℕ) (sites : List (ℤ × ℤ))
    (radius : ℕ) (demand : ℕ → ℕ → ℚ)
    (h : ∀ i j, i < n → j < n → 1 < demand i j →
      ∃ s ∈ sites, ((i : ℤ) - s.1) * ((i : ℤ) - s.1) +
        ((j : ℤ) - s.2) * ((j : ℤ) - s.2) ≤ (radius : ℤ) * (radius : ℤ))
    (he : ∃ i j, i < n ∧ j < n ∧ 1 < demand i j) :
    calculate_coverage n sites radius demand = 100 := by
  rw [calculate_coverage]
  have hterm : ∀ i j : ℕ, 0 ≤ (if 1 < demand i j then demand i j else 0) := by
    intro i j
    split
    · linarith
    · exact le_refl 0
  have hT : 0 < ∑ i in Finset.range n, ∑ j in Finset.range n,
      if 1 < demand i j then demand i j else 0 := by
    obtain ⟨i0, j0, hi0, hj0, hd0⟩ := he
    apply Finset.sum_pos'
    · intro i _
      exact Finset.sum_nonneg fun j _ => hterm i j
    · refine ⟨i0, Finset.mem_range.mpr hi0, ?_⟩
      apply Finset.sum_pos'
      · intro j _
        exact hterm i0 j
      · refine ⟨j0, Finset.mem_range.mpr hj0, ?_⟩
        rw [if_pos hd0]
        linarith
  have hCT : (∑ i in Finset.range n, ∑ j in Finset.range n,
      if 1 < demand i j ∧ coveredBy sites radius i j = true
      then demand i j else 0) =
      ∑ i in Finset.range n, ∑ j in Finset.range n,
        if 1 < demand i j then demand i j else 0 := by
    apply Finset.sum_congr rfl
    intro i hi
    apply Finset.sum_congr rfl
    intro j hj
    rw [Finset.mem_range] at hi hj
    by_cases hd1 : 1 < demand i j
    · rw [if_pos hd1, if_pos]
      exact ⟨hd1, (coveredBy_iff sites radius i j).mpr (h i j hi hj hd1)⟩
    · rw [if_neg hd1, if_neg fun hc => hd1 hc.1]
  rw [if_pos hT, hCT, div_self (ne_of_gt hT)]
  norm_num

/-- C10: `scorePlacement` accepts any list of integer sites — of any
length, in or out of the grid — and an out-of-bounds site covers exactly
like an in-grid one: when every above-threshold cell of each surface is
within `radius` of some listed site, both percentages are 100. -/
theorem calculate_user_performance_arbitrary_sites
    (n radius : ℕ) (sites : List (ℤ × ℤ)) (normal disaster : ℕ → ℕ → ℚ)
    (hN : ∀ i j, i < n → j < n → 1 < normal i j →
      ∃ s ∈ sites, ((i : ℤ) - s.1) * ((i : ℤ) - s.1) +
        ((j : ℤ) - s.2) * ((j : ℤ) - s.2) ≤ (radius : ℤ) * (radius : ℤ))
    (hD : ∀ i j, i < n → j < n → 1 < disaster i j →
      ∃ s ∈ sites, ((i : ℤ) - s.1) * ((i : ℤ) - s.1) +
        ((j : ℤ) - s.2) * ((j : ℤ) - s.2) ≤ (radius : ℤ) * (radius : ℤ))
    (heN : ∃ i j, i < n ∧ j < n ∧ 1 < normal i j)
    (heD : ∃ i j, i < n ∧ j < n ∧ 1 < disaster i j) :
    calculate_user_performance n sites normal disaster radius = (100, 100) := by
  rw [calculate_user_performance,
    calculate_coverage_all_covered n sites radius normal hN heN,
    calculate_coverage_all_covered n sites radius disaster hD heD]

/-- Witness: the single site (-1, 0) lies outside the 1×1 grid, yet grants
full coverage of it at radius 1. -/
theorem calculate_user_performance_arbitrary_sites_witness :
    calculate_user_performance 1 [((-1 : ℤ), (0 : ℤ))] twoSurface twoSurface 1 =
      (100, 100) := by
  have h : ∀ i j : ℕ, i < 1 → j < 1 → 1 < twoSurface i j →
      ∃ s ∈ [((-1 : ℤ), (0 : ℤ))], ((i : ℤ) - s.1) * ((i : ℤ) - s.1) +
        ((j : ℤ) - s.2) * ((j : ℤ) - s.2) ≤ ((1 : ℕ) : ℤ) * ((1 : ℕ) : ℤ) := by
    intro i j hi hj _
    refine ⟨((-1 : ℤ), (0 : ℤ)), by simp, ?_⟩
    have hi0 : i = 0 := by omega
    have hj0 : j = 0 := by omega
    subst hi0; subst hj0
    norm_num
  have he : ∃ i j : ℕ, i < 1 ∧ j < 1 ∧ 1 < twoSurface i j :=
    ⟨0, 0, by norm_num, by norm_num, by rw [twoSurface]; norm_num⟩
  exact calculate_user_performance_arbitrary_sites 1 1 _ twoSurface twoSurface
    h h he he

end EnergySim

namespace EnergySim

/-- Witness for the first-argmax property: on the demo scenario's first
iteration, cell (0,1) (score 3) is appended, beating (0,0) (score 2). -/
theorem greedy_appends_first_rowmajor_argmax_witness :
    ∃ b L₁ L₂,
      (greedyIter 2 demoSurface 0 1).1 = (greedyIter 2 demoSurface 0 0).1 ++ [b] ∧
      b ∉ (greedyIter 2 demoSurface 0 0).1 ∧
      cells 2 = L₁ ++ b :: L₂ ∧
      (∀ c ∈ cells 2, c ∉ (greedyIter 2 demoSurface 0 0).1 →
        marginalScore 2 demoSurface 0 (greedyIter 2 demoSurface 0 0).2 c.1 c.2 ≤
          marginalScore 2 demoSurface 0 (greedyIter 2 demoSurface 0 0).2 b.1 b.2) ∧
      (∀ c ∈ L₁, c ∉ (greedyIter 2 demoSurface 0 0).1 →
        marginalScore 2 demoSurface 0 (greedyIter 2 demoSurface 0 0).2 c.1 c.2 <
          marginalScore 2 demoSurface 0 (greedyIter 2 demoSurface 0 0).2 b.1 b.2) :=
  greedy_appends_first_rowmajor_argmax 2 demoSurface 0 1 0 (by norm_num)
    ⟨(0, 0), by rw [cells_two]; simp, by rw [greedyIter_zero_fst]; simp, by
      rw [greedyIter_zero_snd, marginalScore_radius_zero]
      norm_num [demoSurface]⟩

/-- Witness for the (0,0) fallback: on an all-zero disaster surface over a
1×1 grid, iteration 1 re-appends the already chosen cell (0,0). -/
theorem greedy_zero_scores_pick_origin_witness :
    (greedyIter 1 zeroSurface 0 2).1 = (greedyIter 1 zeroSurface 0 1).1 ++ [(0, 0)] :=
  greedy_zero_scores_pick_origin 1 zeroSurface 0 2 1 (by norm_num)
    fun c _ _ => marginalScore_zeroSurface 1 0 _ c.1 c.2

/-- Witness for coverage monotonicity at a concrete scenario. -/
theorem optimize_reactors_monotone_coverage_witness :
    (optimize_reactors 2 demoSurface demoSurface 1 0).2.1 ≤
      (optimize_reactors 2 demoSurface demoSurface 2 0).2.1 ∧
    (optimize_reactors 2 demoSurface demoSurface 1 0).2.2 ≤
      (optimize_reactors 2 demoSurface demoSurface 2 0).2.2 :=
  optimize_reactors_monotone_coverage 2 demoSurface demoSurface 1 0
    demoSurface_nonneg demoSurface_nonneg

/-- Witness for duplicate-freeness: two facilities on the demo surface,
where both iterations have positive-score candidates. -/
theorem optimize_reactors_nodup_witness :
    ((optimize_reactors 2 demoSurface demoSurface 2 0).1).Nodup :=
  optimize_reactors_nodup 2 demoSurface demoSurface 2 0 (by
    intro m hm
    interval_cases m
    · exact ⟨(0, 0), by rw [cells_two]; simp, by rw [greedyIter_zero_fst]; simp, by
        rw [greedyIter_zero_snd, marginalScore_radius_zero]
        norm_num [demoSurface]⟩
    · exact ⟨(0, 0), by rw [cells_two]; simp, by rw [demo_iter1_fst]; decide, by
        rw [marginalScore_radius_zero, demo_iter1_snd]
        norm_num [demoSurface]⟩)

end EnergySim
